import Mathlib

/-!
Verification development for the `taxmusr` repository.

Part A embeds the deterministic assessment engine of
`src/taxmusr/domains/joint_assessment/logic.py`.  Python floats are
modelled as exact rationals (`ℚ`), `math.floor` as `Int.floor`, and
Python's `round(x, 2)` (round-half-to-even) as `round2` below.

Part B embeds the reasoning-tree construction engine of
`src/taxmusr/domains/joint_assessment/domain.py` together with the
traversals of `src/taxmusr/domains/formatter.py`.  Python strings are
modelled as lists of characters, and the external oracle as a function
from the invocation inputs to the returned text.
-/

namespace TaxMusr

/-- Python's `round` ties-to-even on an exact rational: the integer nearest
to `q`, with halves resolved to the even neighbour. -/
def round_half_even (q : ℚ) : ℤ :=
  let f := Int.floor q
  let r := q - (f : ℚ)
  if r < 1/2 then f
  else if 1/2 < r then f + 1
  else if f % 2 = 0 then f else f + 1

/-- Python's `round(x, 2)`, used by the totals in `logic.py`. -/
def round2 (q : ℚ) : ℚ := ((round_half_even (q * 100) : ℤ) : ℚ) / 100

/-- The `TaxFunc` type alias of `logic.py` (`Callable[[float], float]`). -/
abbrev TaxFunc := ℚ → ℚ

/-- The bracket formula of `compute_tax_2025` applied to the already floored
income `n` (the body between the flooring of the input and the flooring of
the result), with the literal decimal coefficients written as rationals. -/
def bracket_tax_2025 (n : ℤ) : ℚ :=
  if n ≤ 12096 then 0
  else if n ≤ 17443 then
    ((9323/10) * (((n : ℚ) - 12096) / 10000) + 1400) * (((n : ℚ) - 12096) / 10000)
  else if n ≤ 68480 then
    ((17664/100) * (((n : ℚ) - 17443) / 10000) + 2397) * (((n : ℚ) - 17443) / 10000)
      + 101513/100
  else if n ≤ 277825 then
    (42/100) * (n : ℚ) - 1091192/100
  else
    (45/100) * (n : ℚ) - 1924667/100

/-- `compute_tax_2025` of `logic.py`: clamp the income to zero, floor it,
apply the 2025 bracket formula, floor the result. -/
def compute_tax_2025 (x : ℚ) : ℚ :=
  ((Int.floor (bracket_tax_2025 (Int.floor (max 0 x))) : ℤ) : ℚ)

/-- `single_assessment` of `logic.py`. -/
def single_assessment (taxable_income : ℚ) (tax_function : TaxFunc) : ℚ :=
  tax_function (max 0 taxable_income)

/-- `joint_assessment` of `logic.py` (income splitting). -/
def joint_assessment (taxable_income : ℚ) (tax_function : TaxFunc) : ℚ :=
  2 * tax_function (max 0 taxable_income / 2)

/-- `progression_rate_with_wrb` of `logic.py`. -/
def progression_rate_with_wrb (taxable_income wage_replacement : ℚ)
    (joint : Bool) (tax_function : TaxFunc) : ℚ :=
  let base_plus := max 0 taxable_income + max 0 wage_replacement
  if base_plus ≤ 0 then 0
  else
    (if joint then joint_assessment base_plus tax_function
     else single_assessment base_plus tax_function) / base_plus

/-- The `Person` record of `core/schemas.py`. -/
structure Person where
  income : ℚ
  pays_church_tax : Bool
  wage_replacement : ℚ
  medical_costs : ℚ
  fully_liable_for_tax : Bool

/-- The `CoupleTaxInput` record of `core/schemas.py`; its fields are
`a`, `b`, `church_tax_rate`, `married`, `children`, `live_together`. -/
structure CoupleTaxInput where
  a : Person
  b : Person
  church_tax_rate : ℚ
  married : Bool
  children : ℕ
  live_together : Bool

/-- `get_taxable_income_after_medical` of `logic.py`. -/
def get_taxable_income_after_medical (person : Person) : ℚ :=
  let income := max 0 person.income
  let medical := max 0 person.medical_costs
  let threshold :=
    if income ≤ 15340 then (5/100) * income
    else if income ≤ 51130 then (6/100) * income
    else (7/100) * income
  let deductible := max 0 (medical - threshold)
  max 0 (income - deductible)

/-- `compute_special_church_tax` of `logic.py`: the 13-step table plus the
top flat amount, over the couple's combined taxable income. -/
def compute_special_church_tax (income : ℚ) : ℚ :=
  if income < 50000 then 0
  else if income < 57500 then 96
  else if income < 70000 then 156
  else if income < 82500 then 276
  else if income < 95000 then 396
  else if income < 107500 then 540
  else if income < 120000 then 696
  else if income < 145000 then 840
  else if income < 170000 then 1200
  else if income < 195000 then 1560
  else if income < 220000 then 1860
  else if income < 270000 then 2220
  else if income < 320000 then 2940
  else 3600

/-- `ta + tb` in `compute_joint_total`: the couple's combined
medically-adjusted taxable income. -/
def joint_taxable_total (params : CoupleTaxInput) : ℚ :=
  get_taxable_income_after_medical params.a + get_taxable_income_after_medical params.b

/-- `income_tax_total` in `compute_joint_total`: splitting-mode progression
rate applied to the combined adjusted income. -/
def joint_base_tax (params : CoupleTaxInput) (tax_function : TaxFunc) : ℚ :=
  let taxable_total := joint_taxable_total params
  let wrb_total := max 0 params.a.wage_replacement + max 0 params.b.wage_replacement
  progression_rate_with_wrb taxable_total wrb_total true tax_function * taxable_total

/-- `share_a` in `compute_joint_total` (zero when the combined adjusted
income is not positive). -/
def joint_share_a (params : CoupleTaxInput) : ℚ :=
  if 0 < joint_taxable_total params
  then get_taxable_income_after_medical params.a / joint_taxable_total params else 0

/-- `share_b` in `compute_joint_total`. -/
def joint_share_b (params : CoupleTaxInput) : ℚ :=
  if 0 < joint_taxable_total params
  then get_taxable_income_after_medical params.b / joint_taxable_total params else 0

/-- The pair `(church_a, church_b)` as computed by `compute_joint_total`:
proportional allocation of the base tax, then the special-church-tax
override when exactly one partner is a member and the member's share is
below 35 percent. -/
def joint_church_levies (params : CoupleTaxInput) (tax_function : TaxFunc) : ℚ × ℚ :=
  let base_total := joint_base_tax params tax_function
  let alloc_a := base_total * joint_share_a params
  let alloc_b := base_total * joint_share_b params
  let church_a := if params.a.pays_church_tax then alloc_a * params.church_tax_rate else 0
  let church_b := if params.b.pays_church_tax then alloc_b * params.church_tax_rate else 0
  if params.a.pays_church_tax ≠ params.b.pays_church_tax then
    if params.a.pays_church_tax = true ∧ joint_share_a params < 35/100 then
      (max church_a (compute_special_church_tax (joint_taxable_total params)), church_b)
    else if params.b.pays_church_tax = true ∧ joint_share_b params < 35/100 then
      (church_a, max church_b (compute_special_church_tax (joint_taxable_total params)))
    else (church_a, church_b)
  else (church_a, church_b)

/-- `compute_joint_total` of `logic.py`. -/
def compute_joint_total (params : CoupleTaxInput) (tax_function : TaxFunc) : ℚ :=
  round2 (joint_base_tax params tax_function
    + (joint_church_levies params tax_function).1
    + (joint_church_levies params tax_function).2)

/-- `compute_individual_total` of `logic.py`. -/
def compute_individual_total (params : CoupleTaxInput) (tax_function : TaxFunc) : ℚ :=
  let ta := get_taxable_income_after_medical params.a
  let prate_a := progression_rate_with_wrb ta params.a.wage_replacement false tax_function
  let base_a := prate_a * ta
  let church_a := if params.a.pays_church_tax then base_a * params.church_tax_rate else 0
  let total_a := base_a + church_a
  let tb := get_taxable_income_after_medical params.b
  let prate_b := progression_rate_with_wrb tb params.b.wage_replacement false tax_function
  let base_b := prate_b * tb
  let church_b := if params.b.pays_church_tax then base_b * params.church_tax_rate else 0
  let total_b := base_b + church_b
  round2 (total_a + total_b)

/-- The result dictionary of `compare_assessments`. -/
structure AssessmentResult where
  individual_total_tax : ℚ
  joint_total_tax : ℚ
  advantage_if_positive_joint_saves : ℚ
  recommendation : String

/-- `compare_assessments` of `logic.py` (ties recommend joint). -/
def compare_assessments (params : CoupleTaxInput) (tax_function : TaxFunc) : AssessmentResult :=
  let joint_total := compute_joint_total params tax_function
  let individual_total := compute_individual_total params tax_function
  ⟨individual_total, joint_total, round2 (individual_total - joint_total),
    if joint_total < individual_total then "joint"
    else if individual_total < joint_total then "individual" else "joint"⟩

/-- A person with zero income, zero transfer income, zero medical costs and
no levy membership. -/
def zeroPerson : Person := ⟨0, false, 0, 0, true⟩

/-- The symmetric couple input of the tie-break test: both partners are
`zeroPerson`. -/
def zeroCouple : CoupleTaxInput := ⟨zeroPerson, zeroPerson, 9/100, true, 0, true⟩

/-- A couple where only partner A is a levy member and A's share of the
combined adjusted income is below 35 percent. -/
def lowShareMemberCouple : CoupleTaxInput :=
  ⟨⟨20000, true, 0, 0, true⟩, ⟨60000, false, 0, 0, true⟩, 9/100, true, 0, true⟩

/-! ## Part B: the reasoning-tree construction engine

Python strings are modelled as `List Char`. -/

/-- Python strings, modelled as lists of characters. -/
abbrev Str := List Char

/-- The closed `node_type` tag of `ReasoningNode` in `core/schemas.py`. -/
inductive NodeType where
  | deduced_fact
  | story_fact
  | rule_fact
deriving DecidableEq

/-- The `ReasoningNode` record of `core/schemas.py`: a statement, a node
kind, and an ordered list of children. -/
inductive RNode where
  | mk (statement : Str) (node_type : NodeType) (children : List RNode)

/-- The `statement` field of a node. -/
def RNode.statement : RNode → Str
  | .mk s _ _ => s

/-- The `node_type` field of a node. -/
def RNode.node_type : RNode → NodeType
  | .mk _ t _ => t

/-- The `children` field of a node. -/
def RNode.children : RNode → List RNode
  | .mk _ _ cs => cs

/-- The `ReasoningTree` wrapper of `core/schemas.py`. -/
structure ReasoningTree where
  root : RNode

mutual
/-- The preorder walk of `extract_underlying_facts` in `formatter.py`:
collect the statement of every `story_fact` node, node before children,
children left to right. -/
def factsWalk : RNode → List Str
  | .mk s t cs => (if t = .story_fact then [s] else []) ++ factsWalkL cs

/-- `factsWalk` over a child list, left to right. -/
def factsWalkL : List RNode → List Str
  | [] => []
  | c :: cs => factsWalk c ++ factsWalkL cs
end

/-- `extract_underlying_facts` of `formatter.py`. -/
def extract_underlying_facts (tree : ReasoningTree) : List Str :=
  factsWalk tree.root

mutual
/-- The preorder walk of `extract_rule_signals` in `formatter.py`. -/
def rulesWalk : RNode → List Str
  | .mk s t cs => (if t = .rule_fact then [s] else []) ++ rulesWalkL cs

/-- `rulesWalk` over a child list, left to right. -/
def rulesWalkL : List RNode → List Str
  | [] => []
  | c :: cs => rulesWalk c ++ rulesWalkL cs
end

/-- `extract_rule_signals` of `formatter.py`. -/
def extract_rule_signals (tree : ReasoningTree) : List Str :=
  rulesWalk tree.root

/-- Rendering of the `node_type` literal, as it appears in the f-string of
`format_reasoning_trace`. -/
def NodeType.render : NodeType → Str
  | .deduced_fact => "deduced_fact".toList
  | .story_fact => "story_fact".toList
  | .rule_fact => "rule_fact".toList

mutual
/-- The preorder walk of `format_reasoning_trace` in `formatter.py`: one
line per node, indented two spaces per depth level. -/
def traceWalk : Nat → RNode → List Str
  | depth, .mk s t cs =>
    (List.replicate (2 * depth) ' ' ++ "- ".toList ++ s ++ " (".toList ++ t.render ++ ")".toList)
      :: traceWalkL (depth + 1) cs

/-- `traceWalk` over a child list, left to right. -/
def traceWalkL : Nat → List RNode → List Str
  | _, [] => []
  | depth, c :: cs => traceWalk depth c ++ traceWalkL depth cs
end

/-- Join a list of lines with newline characters, as `"\n".join` does. -/
def joinNL : List Str → Str
  | [] => []
  | [l] => l
  | l :: ls => l ++ '\n' :: joinNL ls

/-- `format_reasoning_trace` of `formatter.py`. -/
def format_reasoning_trace (tree : ReasoningTree) : Str :=
  joinNL (traceWalk 0 tree.root)

mutual
/-- The list of all nodes of a tree in preorder (node, then each child left
to right); the reference ordering shared by the three walks. -/
def preorderNodes : RNode → List RNode
  | .mk s t cs => .mk s t cs :: preorderL cs

/-- `preorderNodes` over a child list, left to right. -/
def preorderL : List RNode → List RNode
  | [] => []
  | c :: cs => preorderNodes c ++ preorderL cs
end

mutual
/-- Height of a node: 0 for a leaf, one more than the maximal child height
otherwise.  A tree of height `h` has no node at depth greater than `h`. -/
def heightOf : RNode → Nat
  | .mk _ _ cs => heightL cs

/-- One plus the maximal height of a node in the list (0 for `[]`). -/
def heightL : List RNode → Nat
  | [] => 0
  | c :: cs => max (heightOf c + 1) (heightL cs)
end

/-- `leavesAt k n = true` when every node of `n` at depth exactly `k` has an
empty child list. -/
def leavesAt : Nat → RNode → Bool
  | 0, n => n.children.isEmpty
  | k + 1, n => n.children.all (leavesAt k)

/-- Lookup of the node addressed by a path of child indices. -/
def nodeAt : List Nat → RNode → Option RNode
  | [], n => some n
  | i :: p, n =>
    match n.children[i]? with
    | some c => nodeAt p c
    | none => none

/-- Apply `f` to the element at index `i`, leaving the rest unchanged. -/
def modifyAt (f : RNode → RNode) : Nat → List RNode → List RNode
  | _, [] => []
  | 0, c :: cs => f c :: cs
  | i + 1, c :: cs => c :: modifyAt f i cs

/-- The effect of Python's in-place `node.children.append(child)` on the
node addressed by `path`, expressed as a whole-tree update.  An invalid
path leaves the tree unchanged (the source never produces one). -/
def appendChildAt : List Nat → RNode → RNode → RNode
  | [], .mk s t cs, c => .mk s t (cs ++ [c])
  | i :: p, .mk s t cs, c => .mk s t (modifyAt (fun ch => appendChildAt p ch c) i cs)

/-- The statement and kind of a node: the attributes the expansion step
fixes when it creates the node (children are appended later). -/
def labelOf (n : RNode) : Str × NodeType := (n.statement, n.node_type)

/-- The labels of all nodes of a tree, in preorder. -/
def labelsOf (n : RNode) : List (Str × NodeType) := (preorderNodes n).map labelOf

mutual
/-- Whether some node of the tree carries the given statement. -/
def containsStmt : RNode → Str → Bool
  | .mk s _ cs, x => s == x || containsStmtL cs x

/-- `containsStmt` over a child list. -/
def containsStmtL : List RNode → Str → Bool
  | [], _ => false
  | c :: cs, x => containsStmt c x || containsStmtL cs x
end

/-- Python's six `str.strip` whitespace characters. -/
def isPySpace (c : Char) : Bool :=
  c == ' ' || c == '\t' || c == '\n' || c == '\r' || c == '\x0b' || c == '\x0c'

/-- Python's `str.strip()`: drop whitespace from both ends. -/
def pyStrip (s : Str) : Str :=
  ((s.dropWhile isPySpace).reverse.dropWhile isPySpace).reverse

/-- `response.content.split("\n")`: split at every newline, keeping empty
pieces. -/
def splitOnNL : Str → List Str
  | [] => [[]]
  | c :: cs =>
    if c = '\n' then [] :: splitOnNL cs
    else
      match splitOnNL cs with
      | [] => [[c]]
      | l :: ls => (c :: l) :: ls

/-- The line list of the expansion step:
`[line.strip() for line in response.content.split("\n") if line.strip()]`. -/
def splitLines (s : Str) : List Str :=
  ((splitOnNL s).map pyStrip).filter (fun l => l ≠ [])

/-- Python's substring test `needle in hay`. -/
def containsSub (hay needle : Str) : Bool :=
  hay.tails.any (fun t => needle.isPrefixOf t)

/-- The `"Story Fact:"` line marker of the expansion step. -/
def storyMarker : Str := "Story Fact:".toList

/-- The `"Rule:"` line marker of the expansion step. -/
def ruleMarker : Str := "Rule:".toList

/-- `line[len(marker):].strip().replace('"', '')` of the expansion step. -/
def cleanText (line : Str) (marker : Str) : Str :=
  (pyStrip (line.drop marker.length)).filter (fun c => !(c == '"'))

/-- The kind given to a child created from a story-fact line: reclassified
to `deduced_fact` when the lowered text contains a forbidden term
(`any(bad_word in story_fact.lower() for bad_word in forbidden_words)`). -/
def storyNodeType (forbidden : List Str) (s : Str) : NodeType :=
  if forbidden.any (fun w => containsSub (s.map Char.toLower) w) then .deduced_fact
  else .story_fact

/-- The per-line loop body of `expand_node`: walk the parsed lines left to
right; a story-fact line appends a child (kind per `storyNodeType`) and
recurses into it at once through `recur` before the next line is handled; a
rule line appends a `rule_fact` leaf; other lines are discarded. -/
def processLines (recur : RNode → List Nat → Nat → RNode) (forbidden : List Str)
    (path : List Nat) (depth : Nat) (root : RNode) (lines : List Str) : RNode :=
  lines.foldl (fun r line =>
    if storyMarker.isPrefixOf line then
      let story_fact := cleanText line storyMarker
      if story_fact ≠ [] then
        let idx := ((nodeAt path r).map (fun n => n.children.length)).getD 0
        let r1 := appendChildAt path r (.mk story_fact (storyNodeType forbidden story_fact) [])
        recur r1 (path ++ [idx]) (depth + 1)
      else r
    else if ruleMarker.isPrefixOf line then
      let rule_fact := cleanText line ruleMarker
      if rule_fact ≠ [] then appendChildAt path r (.mk rule_fact .rule_fact [])
      else r
    else r) root

/-- The recursive `expand_node` of `complete_reasoning_tree`: at a node of
depth at most `max_depth`, collect the story facts of the whole tree built
so far by a fresh full traversal, invoke the oracle with the node's
statement and that list, and process the response lines.  The in-place
mutation of the Python original is expressed by threading the whole root
and addressing the current node by `path`.  `fuel` only bounds the
recursion depth of the encoding: calls carry `fuel + depth = max_depth + 2`,
so the `depth ≤ max_depth` guard always stops the recursion before the fuel
runs out (`expandNode_fuel_congr` below). -/
def expandNode (oracle : Str → List Str → Str) (forbidden : List Str) (max_depth : Nat) :
    Nat → RNode → List Nat → Nat → RNode
  | 0, root, _, _ => root
  | fuel + 1, root, path, depth =>
    if depth ≤ max_depth then
      processLines (expandNode oracle forbidden max_depth fuel) forbidden path depth root
        (splitLines (oracle (((nodeAt path root).map RNode.statement).getD [])
          (extract_underlying_facts ⟨root⟩)))
    else root

/-- The `forbidden_words` list of both domain classes in `domain.py`. -/
def forbidden_words : List Str :=
  ["joint assessment".toList, "individual assessment".toList]

/-- The root built before expansion: the conclusion as a `deduced_fact`
whose children are the given facts as `story_fact` leaves. -/
def initial_root (conclusion : Str) (facts : List Str) : RNode :=
  .mk conclusion .deduced_fact (facts.map (fun f => .mk f .story_fact []))

/-- `JointAssessmentDomain.complete_reasoning_tree`: root from the first
gold fact and the diversity facts, then `expand_node(root, 0)`.  The oracle
argument abstracts the generation chain; the constant rule corpus passed to
every invocation is absorbed into it. -/
def complete_reasoning_tree (max_depth : Nat) (oracle : Str → List Str → Str)
    (gold_facts diversity_facts : List Str) : ReasoningTree :=
  ⟨expandNode oracle forbidden_words max_depth (max_depth + 2)
    (initial_root (gold_facts.headD []) diversity_facts) [] 0⟩

/-- `GroundedJointAssessmentDomain.complete_reasoning_tree`: conclusion from
the answer, children from gold facts followed by diversity facts, then the
same expansion. -/
def grounded_complete_reasoning_tree (max_depth : Nat) (oracle : Str → List Str → Str)
    (answer : String) (gold_facts diversity_facts : List Str) : ReasoningTree :=
  ⟨expandNode oracle forbidden_words max_depth (max_depth + 2)
    (initial_root
      (if answer = "individual" then "The couple should file individual assessments.".toList
       else "The couple should opt for joint assessment to minimize their tax burden.".toList)
      (gold_facts ++ diversity_facts)) [] 0⟩

/-- A deterministic stub oracle: the root yields two story facts A and B;
A yields A1; the response for B depends on whether the accumulated fact
list already contains A1 (the descendant added while expanding the earlier
sibling A). -/
def demoOracle (stmt : Str) (facts : List Str) : Str :=
  if stmt = "C".toList then "Story Fact: A\nStory Fact: B".toList
  else if stmt = "A".toList then "Story Fact: A1".toList
  else if stmt = "B".toList then
    (if facts.contains "A1".toList then "Story Fact: sawA1".toList
     else "Story Fact: noA1".toList)
  else []

/-! ## Part C: the grounded template construction of `domain.py` -/

/-- A Python attribute value of a `CoupleTaxInput` field. -/
inductive PyVal where
  | num (q : ℚ)
  | bool (b : Bool)
  | nat (n : ℕ)
  | person (p : Person)

/-- Python attribute lookup on a `CoupleTaxInput` object, exhaustive over
the fields declared in `core/schemas.py` (`a`, `b`, `church_tax_rate`,
`married`, `children`, `live_together`); any other name has no attribute,
which in Python raises `AttributeError`. -/
def CoupleTaxInput.getattr (c : CoupleTaxInput) (name : Str) : Option PyVal :=
  if name = "a".toList then some (.person c.a)
  else if name = "b".toList then some (.person c.b)
  else if name = "church_tax_rate".toList then some (.num c.church_tax_rate)
  else if name = "married".toList then some (.bool c.married)
  else if name = "children".toList then some (.nat c.children)
  else if name = "live_together".toList then some (.bool c.live_together)
  else none

/-- The gold-facts construction of
`GroundedJointAssessmentDomain.construct_template` (lines 161-191 of
`domain.py`).  `showNum` abstracts Python's number-to-string formatting.
The second list element interpolates `couple_facts.income`, an attribute
lookup on the `CoupleTaxInput` record itself, modelled by
`CoupleTaxInput.getattr`; Python's conditional expression evaluates it only
when `couple_facts.a.income > 0`. -/
def grounded_gold_facts (showNum : ℚ → Str) (c : CoupleTaxInput) : Except Str (List Str) := do
  let married_fact :=
    if c.married then "Person A and Person B are married.".toList
    else "Person A and Person B are not married.".toList
  let a_income_fact ←
    if 0 < c.a.income then
      match CoupleTaxInput.getattr c ("income".toList) with
      | some (.num q) =>
        Except.ok ("Person A has a taxable income of ".toList ++ showNum q ++ " euros.".toList)
      | _ => Except.error "AttributeError: income".toList
    else pure "Person A has no taxable income.".toList
  let b_income_fact :=
    if 0 < c.b.income then
      "Person B has a taxable income of ".toList ++ showNum c.b.income ++ " euros.".toList
    else "Person B has no taxable income.".toList
  pure ([married_fact, a_income_fact, b_income_fact]
    ++ (if !c.a.fully_liable_for_tax then ["Person A is not fully liable for tax in Germany.".toList] else [])
    ++ (if !c.b.fully_liable_for_tax then ["Person B is not fully liable for tax in Germany.".toList] else [])
    ++ (if !c.live_together then ["The couple did not live together at any point during the year.".toList]
        else ["The couple lived together at least for one day during the year.".toList])
    ++ (if 0 < c.a.wage_replacement then
          ["Person A received ".toList ++ showNum c.a.wage_replacement
            ++ " euros in wage replacement benefits.".toList] else [])
    ++ (if 0 < c.b.wage_replacement then
          ["Person B received ".toList ++ showNum c.b.wage_replacement
            ++ " euros in wage replacement benefits.".toList] else [])
    ++ (if 0 < c.a.medical_costs then
          ["Person A paid ".toList ++ showNum c.a.medical_costs
            ++ " euros in medical costs out of pocket.".toList] else [])
    ++ (if 0 < c.b.medical_costs then
          ["Person B paid ".toList ++ showNum c.b.medical_costs
            ++ " euros in medical costs out of pocket.".toList] else [])
    ++ (if c.a.pays_church_tax || c.b.pays_church_tax then
          ("The church tax rate is ".toList ++ showNum (c.church_tax_rate * 100)
              ++ " percent.".toList)
            :: (if c.a.pays_church_tax && c.b.pays_church_tax then
                  ["Both Person A and Person B are members of a church that requires church tax.".toList]
                else if c.a.pays_church_tax then
                  ["Only Person A is a member of a church that requires church tax.".toList]
                else
                  ["Only Person B is a member of a church that requires church tax.".toList])
        else []))

/-- The `StoryTemplate` fields produced by the grounded template stage. -/
structure StoryTemplateM where
  gold_facts : List Str
  diversity_facts : List Str
  question : Str
  answer : String
  rule_signals : List Str

/-- `GroundedJointAssessmentDomain.construct_template` for an already
sampled couple input: answer from eligibility and `compare_assessments`,
gold facts from `grounded_gold_facts`, diversity facts from the job choices
`jobA`/`jobB` and the child count.  `showNum`/`showNat` abstract Python's
number formatting. -/
def grounded_construct_template (showNum : ℚ → Str) (showNat : ℕ → Str)
    (jobA jobB : Str) (c : CoupleTaxInput) : Except Str StoryTemplateM := do
  let assessment := compare_assessments c compute_tax_2025
  let eligible := c.married && c.a.fully_liable_for_tax && c.b.fully_liable_for_tax
    && c.live_together
  let answer := if !eligible then "individual" else assessment.recommendation
  let gold ← grounded_gold_facts showNum c
  let diversity :=
    [if 0 < c.a.income then "Person A is working as a ".toList ++ jobA
     else "Person A is currently unemployed.".toList,
     if 0 < c.b.income then "Person B is working as a ".toList ++ jobB
     else "Person B is currently unemployed.".toList]
    ++ [if 0 < c.children then
          "The couple has ".toList ++ showNat c.children
            ++ (if 1 < c.children then " children.".toList else " child.".toList)
        else "The couple has no children.".toList]
  pure ⟨gold, diversity,
    "Should the couple opt for joint assessment or individual assessment to minimize their tax burden?".toList,
    answer,
    ["Couples are eligible for joint assessment if married, both are fully liable for tax in Germany and have lived together for at least one day of the assessment year.".toList]⟩

/-! ## Lemmas for the assessment engine -/

/-- Every total of the zero couple is zero, for any tax function. -/
theorem zeroCouple_totals (tf : TaxFunc) :
    compute_joint_total zeroCouple tf = 0 ∧ compute_individual_total zeroCouple tf = 0 := by
  have hadj : get_taxable_income_after_medical zeroPerson = 0 := by
    simp [get_taxable_income_after_medical, zeroPerson]
  have hrate : ∀ j : Bool, progression_rate_with_wrb 0 0 j tf = 0 := by
    intro j
    simp [progression_rate_with_wrb]
  have hr2 : round2 0 = 0 := by
    norm_num [round2, round_half_even]
  constructor
  · have hbase : joint_base_tax zeroCouple tf = 0 := by
      simp [joint_base_tax, joint_taxable_total, zeroCouple, hadj, hrate]
    have hlev : joint_church_levies zeroCouple tf = (0, 0) := by
      simp [joint_church_levies, zeroCouple, zeroPerson]
    rw [compute_joint_total, hbase, hlev]
    simpa using hr2
  · norm_num [compute_individual_total, zeroCouple, zeroPerson,
      get_taxable_income_after_medical, progression_rate_with_wrb, round2, round_half_even]

/-- One bracket step of the 2025 schedule never decreases the pre-floor
liability. -/
theorem bracket_tax_2025_step (n : ℤ) : bracket_tax_2025 n ≤ bracket_tax_2025 (n + 1) := by
  unfold bracket_tax_2025
  by_cases hA : n ≤ 12095
  · rw [if_pos (show n ≤ 12096 by omega), if_pos (show n + 1 ≤ 12096 by omega)]
  by_cases hB : n = 12096
  · subst hB
    norm_num
  by_cases hC : n ≤ 17442
  · rw [if_neg (show ¬ n ≤ 12096 by omega), if_pos (show n ≤ 17443 by omega),
      if_neg (show ¬ n + 1 ≤ 12096 by omega), if_pos (show n + 1 ≤ 17443 by omega)]
    have hn : (12097 : ℚ) ≤ (n : ℚ) := by exact_mod_cast (show (12097:ℤ) ≤ n by omega)
    push_cast
    nlinarith [hn]
  by_cases hD : n = 17443
  · subst hD
    norm_num
  by_cases hE : n ≤ 68479
  · rw [if_neg (show ¬ n ≤ 12096 by omega), if_neg (show ¬ n ≤ 17443 by omega),
      if_pos (show n ≤ 68480 by omega), if_neg (show ¬ n + 1 ≤ 12096 by omega),
      if_neg (show ¬ n + 1 ≤ 17443 by omega), if_pos (show n + 1 ≤ 68480 by omega)]
    have hn : (17444 : ℚ) ≤ (n : ℚ) := by exact_mod_cast (show (17444:ℤ) ≤ n by omega)
    push_cast
    nlinarith [hn]
  by_cases hF : n = 68480
  · subst hF
    norm_num
  by_cases hG : n ≤ 277824
  · rw [if_neg (show ¬ n ≤ 12096 by omega), if_neg (show ¬ n ≤ 17443 by omega),
      if_neg (show ¬ n ≤ 68480 by omega), if_pos (show n ≤ 277825 by omega),
      if_neg (show ¬ n + 1 ≤ 12096 by omega), if_neg (show ¬ n + 1 ≤ 17443 by omega),
      if_neg (show ¬ n + 1 ≤ 68480 by omega), if_pos (show n + 1 ≤ 277825 by omega)]
    push_cast
    linarith
  by_cases hH : n = 277825
  · subst hH
    norm_num
  · rw [if_neg (show ¬ n ≤ 12096 by omega), if_neg (show ¬ n ≤ 17443 by omega),
      if_neg (show ¬ n ≤ 68480 by omega), if_neg (show ¬ n ≤ 277825 by omega),
      if_neg (show ¬ n + 1 ≤ 12096 by omega), if_neg (show ¬ n + 1 ≤ 17443 by omega),
      if_neg (show ¬ n + 1 ≤ 68480 by omega), if_neg (show ¬ n + 1 ≤ 277825 by omega)]
    push_cast
    linarith

/-- The pre-floor bracket formula is monotone over all floored incomes. -/
theorem bracket_tax_2025_mono {m n : ℤ} (h : m ≤ n) :
    bracket_tax_2025 m ≤ bracket_tax_2025 n :=
  Int.le_induction (P := fun k => bracket_tax_2025 m ≤ bracket_tax_2025 k)
    le_rfl (fun k _ ih => ih.trans (bracket_tax_2025_step k)) n h

/-- `compute_tax_2025` is monotone over all rational incomes. -/
theorem compute_tax_2025_mono {x1 x2 : ℚ} (h : x1 ≤ x2) :
    compute_tax_2025 x1 ≤ compute_tax_2025 x2 := by
  unfold compute_tax_2025
  have h1 : Int.floor (max (0:ℚ) x1) ≤ Int.floor (max (0:ℚ) x2) :=
    Int.floor_le_floor (max_le_max le_rfl h)
  exact_mod_cast Int.floor_le_floor (bracket_tax_2025_mono h1)

/-! ## Claim theorems for the assessment engine -/

/-- C1: `compare_assessments` recommends joint exactly when the joint total
is at most the individual total (ties resolve to joint), individual exactly
when the individual total is strictly smaller; and on the symmetric
all-zero couple the recommendation is joint. -/
theorem comparator_tie_break :
    (∀ (tf : TaxFunc) (params : CoupleTaxInput),
      ((compare_assessments params tf).recommendation = "joint" ↔
        compute_joint_total params tf ≤ compute_individual_total params tf) ∧
      ((compare_assessments params tf).recommendation = "individual" ↔
        compute_individual_total params tf < compute_joint_total params tf)) ∧
    (compare_assessments zeroCouple compute_tax_2025).recommendation = "joint" := by
  constructor
  · intro tf params
    rcases lt_trichotomy (compute_joint_total params tf) (compute_individual_total params tf)
      with h | h | h
    · constructor
      · simp [compare_assessments, h, h.le]
      · simp [compare_assessments, h, h.asymm]
    · constructor
      · simp [compare_assessments, h, le_of_eq h]
      · simp [compare_assessments, h]
    · constructor
      · simp [compare_assessments, h, h.asymm, not_le.2 h]
      · simp [compare_assessments, h, h.asymm]
  · rcases zeroCouple_totals compute_tax_2025 with ⟨hj, hi⟩
    simp [compare_assessments, hj, hi]

/-- C2: for nonnegative taxable income and transfer amount the progression
rate is 0 when `t + w = 0` and otherwise the liability on `t + w` (split in
joint mode) divided by `t + w`; and the individual total charges each
partner `rate × adjusted income` (times the levy multiplier), so the
transfer income is never taxed directly. -/
theorem progression_rate_spec :
    (∀ (tf : TaxFunc) (t w : ℚ) (j : Bool), 0 ≤ t → 0 ≤ w →
      progression_rate_with_wrb t w j tf =
        if t + w = 0 then 0
        else (if j then 2 * tf ((t + w) / 2) else tf (t + w)) / (t + w)) ∧
    (∀ (tf : TaxFunc) (params : CoupleTaxInput),
      compute_individual_total params tf =
        round2
          ((progression_rate_with_wrb (get_taxable_income_after_medical params.a)
              params.a.wage_replacement false tf * get_taxable_income_after_medical params.a)
            * (1 + (if params.a.pays_church_tax then params.church_tax_rate else 0))
          + (progression_rate_with_wrb (get_taxable_income_after_medical params.b)
              params.b.wage_replacement false tf * get_taxable_income_after_medical params.b)
            * (1 + (if params.b.pays_church_tax then params.church_tax_rate else 0)))) := by
  constructor
  · intro tf t w j ht hw
    rw [progression_rate_with_wrb]
    rw [max_eq_right ht, max_eq_right hw]
    by_cases h0 : t + w = 0
    · rw [if_pos (le_of_eq h0), if_pos h0]
    · have hpos : 0 < t + w := lt_of_le_of_ne (add_nonneg ht hw) (Ne.symm h0)
      rw [if_neg (not_le.2 hpos), if_neg h0]
      cases j
      · simp [single_assessment, max_eq_right hpos.le]
      · simp [joint_assessment, max_eq_right hpos.le]
  · intro tf params
    rw [compute_individual_total]
    cases params.a.pays_church_tax <;> cases params.b.pays_church_tax <;>
      simp <;> ring_nf

/-- Witness for C2 at `t = 30000`, `w = 5000`, single mode. -/
theorem progression_rate_spec_witness :
    progression_rate_with_wrb 30000 5000 false compute_tax_2025 =
      compute_tax_2025 35000 / 35000 := by
  have h := progression_rate_spec.1 compute_tax_2025 30000 5000 false
    (by norm_num) (by norm_num)
  norm_num at h
  exact h

/-- C3: with zero transfer income the joint-mode progression-rate path
charges exactly `2 × compute_tax_2025(x / 2)` on income `x ≥ 0`. -/
theorem splitting_invariant (x : ℚ) (hx : 0 ≤ x) :
    progression_rate_with_wrb x 0 true compute_tax_2025 * x =
      2 * compute_tax_2025 (x / 2) := by
  by_cases h0 : x = 0
  · subst h0
    norm_num [progression_rate_with_wrb, compute_tax_2025, bracket_tax_2025]
  · have hpos : 0 < x := lt_of_le_of_ne hx (Ne.symm h0)
    rw [progression_rate_with_wrb]
    rw [max_eq_right hx]
    simp only [add_zero, max_self, if_neg (not_le.2 (by simpa using hpos)), if_pos]
    rw [joint_assessment, max_eq_right hx, div_mul_cancel₀ _ h0]

/-- Witness for C3 at `x = 30000`. -/
theorem splitting_invariant_witness :
    (0:ℚ) ≤ 30000 ∧
      progression_rate_with_wrb 30000 0 true compute_tax_2025 * 30000 =
        2 * compute_tax_2025 15000 := by
  constructor
  · norm_num
  · have h := splitting_invariant 30000 (by norm_num)
    norm_num at h ⊢
    exact h

/-- C4: the levy pair of the joint total is the plain proportional
allocation when both or neither partner is a member; when exactly one
partner is a member, only that partner's levy can change, and it becomes
the maximum of the allocation and the stepped table exactly when the
member's share of combined adjusted income is below 35 percent. -/
theorem special_levy_override (tf : TaxFunc) (params : CoupleTaxInput) :
    (params.a.pays_church_tax = true → params.b.pays_church_tax = true →
      joint_church_levies params tf =
        (joint_base_tax params tf * joint_share_a params * params.church_tax_rate,
         joint_base_tax params tf * joint_share_b params * params.church_tax_rate)) ∧
    (params.a.pays_church_tax = false → params.b.pays_church_tax = false →
      joint_church_levies params tf = (0, 0)) ∧
    (params.a.pays_church_tax = true → params.b.pays_church_tax = false →
      joint_church_levies params tf =
        ((if joint_share_a params < 35/100 then
            max (joint_base_tax params tf * joint_share_a params * params.church_tax_rate)
              (compute_special_church_tax (joint_taxable_total params))
          else joint_base_tax params tf * joint_share_a params * params.church_tax_rate), 0)) ∧
    (params.a.pays_church_tax = false → params.b.pays_church_tax = true →
      joint_church_levies params tf =
        (0, (if joint_share_b params < 35/100 then
               max (joint_base_tax params tf * joint_share_b params * params.church_tax_rate)
                 (compute_special_church_tax (joint_taxable_total params))
             else joint_base_tax params tf * joint_share_b params * params.church_tax_rate))) := by
  refine ⟨fun ha hb => ?_, fun ha hb => ?_, fun ha hb => ?_, fun ha hb => ?_⟩ <;>
    rw [joint_church_levies] <;> rw [ha, hb] <;> simp <;>
    by_cases hs : joint_share_a params < 35/100 <;>
    by_cases hs2 : joint_share_b params < 35/100 <;>
    simp [hs, hs2]

/-- Witness for C4 on a couple where only partner A is a member. -/
theorem special_levy_override_witness :
    joint_church_levies lowShareMemberCouple compute_tax_2025 =
      ((if joint_share_a lowShareMemberCouple < 35/100 then
          max (joint_base_tax lowShareMemberCouple compute_tax_2025
              * joint_share_a lowShareMemberCouple * lowShareMemberCouple.church_tax_rate)
            (compute_special_church_tax (joint_taxable_total lowShareMemberCouple))
        else joint_base_tax lowShareMemberCouple compute_tax_2025
            * joint_share_a lowShareMemberCouple * lowShareMemberCouple.church_tax_rate), 0) :=
  (special_levy_override compute_tax_2025 lowShareMemberCouple).2.2.1 rfl rfl

/-- C5: the 2025 progressive schedule is non-decreasing at and above the
successor of the first breakpoint. -/
theorem progressive_schedule_mono (x1 x2 : ℚ) (h : x1 ≤ x2)
    (h1 : 12097 ≤ x1) (h2 : 12097 ≤ x2) :
    compute_tax_2025 x1 ≤ compute_tax_2025 x2 :=
  compute_tax_2025_mono h

/-- Witness for C5 at `x1 = 20000`, `x2 = 30000`. -/
theorem progressive_schedule_mono_witness :
    (20000:ℚ) ≤ 30000 ∧ compute_tax_2025 20000 ≤ compute_tax_2025 30000 :=
  ⟨by norm_num, progressive_schedule_mono 20000 30000 (by norm_num) (by norm_num) (by norm_num)⟩

/-! ## Lemmas for the reasoning-tree engine -/

/-- Strong induction over the nested tree type: to prove `P` of a node it
suffices to prove it from `P` of all its children. -/
theorem RNode.strongInd (P : RNode → Prop)
    (h : ∀ s t cs, (∀ c, c ∈ cs → P c) → P (.mk s t cs)) : ∀ n, P n
  | .mk s t cs => h s t cs (fun c hc => RNode.strongInd P h c)
termination_by n => sizeOf n
decreasing_by
  have := List.sizeOf_lt_of_mem hc
  simp only [RNode.mk.sizeOf_spec]
  omega

/-- `heightL` of an appended list is the maximum of the two heights. -/
theorem heightL_append (xs ys : List RNode) :
    heightL (xs ++ ys) = max (heightL xs) (heightL ys) := by
  induction xs with
  | nil => simp [heightL]
  | cons c cs ih => simp [heightL, ih]; omega

/-- A member of a list sits strictly below the list height bound. -/
theorem heightL_mem {c : RNode} {cs : List RNode} (hc : c ∈ cs) :
    heightOf c + 1 ≤ heightL cs := by
  induction cs with
  | nil => cases hc
  | cons d ds ih =>
    rcases List.mem_cons.1 hc with h | h
    · subst h
      simp [heightL]
    · calc heightOf c + 1 ≤ heightL ds := ih h
        _ ≤ heightL (d :: ds) := by simp only [heightL]; omega

/-- Modifying one list entry with a height-bounded function bounds the list
height. -/
theorem heightL_modifyAt (f : RNode → RNode) (K : ℕ)
    (hf : ∀ ch, heightOf (f ch) ≤ max (heightOf ch) K) :
    ∀ (i : ℕ) (cs : List RNode), heightL (modifyAt f i cs) ≤ max (heightL cs) (K + 1) := by
  intro i cs
  induction cs generalizing i with
  | nil => simp [modifyAt, heightL]
  | cons c cs ih =>
    cases i with
    | zero =>
      have := hf c
      simp only [modifyAt, heightL]
      omega
    | succ i =>
      have := ih i
      simp only [modifyAt, heightL]
      omega

/-- Appending a child at a path of length `k` bounds the height by the old
height and `k + 1` plus the child height. -/
theorem appendChildAt_height (p : List Nat) (r c : RNode) :
    heightOf (appendChildAt p r c) ≤ max (heightOf r) (p.length + 1 + heightOf c) := by
  induction p generalizing r with
  | nil =>
    cases r with
    | mk s t cs =>
      simp only [appendChildAt, heightOf, heightL_append]
      simp [heightL]
      omega
  | cons i p ih =>
    cases r with
    | mk s t cs =>
      simp only [appendChildAt, heightOf]
      have := heightL_modifyAt (fun ch => appendChildAt p ch c) (p.length + 1 + heightOf c)
        (fun ch => ih ch) i cs
      simp only [List.length_cons]
      omega

/-- `preorderL` distributes over list append. -/
theorem preorderL_append (xs ys : List RNode) :
    preorderL (xs ++ ys) = preorderL xs ++ preorderL ys := by
  induction xs with
  | nil => simp [preorderL]
  | cons c cs ih => simp [preorderL, ih]

/-- A leaf's preorder listing is the leaf alone. -/
theorem preorderNodes_leaf (s : Str) (t : NodeType) :
    preorderNodes (.mk s t []) = [.mk s t []] := by
  simp [preorderNodes, preorderL]

/-- Every label of the tree after a child append was a label of the old
tree or a label of the new child. -/
theorem appendChildAt_labels (p : List Nat) (r c : RNode) :
    ∀ l ∈ labelsOf (appendChildAt p r c), l ∈ labelsOf r ∨ l ∈ labelsOf c := by
  induction p generalizing r with
  | nil =>
    cases r with
    | mk s t cs =>
      intro l hl
      simp only [appendChildAt, labelsOf, preorderNodes, preorderL_append,
        List.map_cons, List.map_append, List.mem_cons, List.mem_append] at hl
      rcases hl with h | h | h
      · left
        simp [labelsOf, preorderNodes, labelOf, RNode.statement, RNode.node_type, h]
      · left
        simp [labelsOf, preorderNodes, h]
      · right
        rcases List.mem_map.1 h with ⟨m, hm, hml⟩
        rcases c with ⟨cs', ct', cc'⟩
        simp only [preorderL, preorderNodes, List.append_nil] at hm
        simp only [labelsOf, preorderNodes, List.map_cons]
        rcases List.mem_cons.1 hm with h2 | h2
        · subst h2
          rw [← hml]
          exact List.mem_cons_self _ _
        · exact List.mem_cons_of_mem _ (hml ▸ List.mem_map_of_mem labelOf h2)
  | cons i p ih =>
    cases r with
    | mk s t cs =>
      intro l hl
      simp only [appendChildAt, labelsOf, preorderNodes, List.map_cons, List.mem_cons] at hl
      rcases hl with h | h
      · left
        simp [labelsOf, preorderNodes, labelOf, RNode.statement, RNode.node_type, h]
      · have key : ∀ (j : ℕ) (ds : List RNode),
            l ∈ (preorderL (modifyAt (fun ch => appendChildAt p ch c) j ds)).map labelOf →
            l ∈ (preorderL ds).map labelOf ∨ l ∈ labelsOf c := by
          intro j ds
          induction ds generalizing j with
          | nil => intro h2; simp [modifyAt] at h2; simp [h2]
          | cons d ds ihd =>
            cases j with
            | zero =>
              intro h2
              simp only [modifyAt, preorderL, List.map_append, List.mem_append] at h2 ⊢
              rcases h2 with h2 | h2
              · rcases ih d l h2 with h3 | h3
                · exact Or.inl (Or.inl h3)
                · exact Or.inr h3
              · exact Or.inl (Or.inr h2)
            | succ j =>
              intro h2
              simp only [modifyAt, preorderL, List.map_append, List.mem_append] at h2 ⊢
              rcases h2 with h2 | h2
              · exact Or.inl (Or.inl h2)
              · rcases ihd j h2 with h3 | h3
                · exact Or.inl (Or.inr h3)
                · exact Or.inr h3
        rcases key i cs h with h2 | h2
        · left
          simp only [labelsOf, preorderNodes, List.map_cons]
          exact List.mem_cons_of_mem _ h2
        · right
          exact h2

/-- Fold preservation of a predicate on trees. -/
theorem foldl_inv {α : Type} (Q : RNode → Prop) (f : RNode → α → RNode)
    (hf : ∀ r a, Q r → Q (f r a)) :
    ∀ (l : List α) (r : RNode), Q r → Q (l.foldl f r) := by
  intro l
  induction l with
  | nil => intro r hr; simpa using hr
  | cons a l ih => intro r hr; exact ih _ (hf r a hr)

/-- Master invariant of the expansion: any tree predicate preserved by
appending a well-classified leaf child at a path of length at most
`max_depth` is preserved by `expandNode`. -/
theorem expandNode_inv (oracle : Str → List Str → Str) (forbidden : List Str) (maxd : Nat)
    (Q : RNode → Prop)
    (hQ : ∀ (q : List Nat) (r c : RNode), Q r → q.length ≤ maxd → c.children = [] →
      (c.node_type = .rule_fact ∨ c.node_type = storyNodeType forbidden c.statement) →
      Q (appendChildAt q r c)) :
    ∀ (fuel : Nat) (root : RNode) (path : List Nat) (depth : Nat),
      path.length = depth → Q root →
      Q (expandNode oracle forbidden maxd fuel root path depth) := by
  intro fuel
  induction fuel with
  | zero => intro root path depth _ hr; simpa [expandNode] using hr
  | succ fuel ih =>
    intro root path depth hlen hr
    rw [expandNode]
    by_cases hd : depth ≤ maxd
    · rw [if_pos hd, processLines]
      apply foldl_inv Q _ ?_ _ _ hr
      intro r line hq
      dsimp only
      by_cases h1 : storyMarker.isPrefixOf line
      · rw [if_pos h1]
        by_cases h2 : cleanText line storyMarker = []
        · rw [if_neg (not_not_intro h2)]
          exact hq
        · rw [if_pos h2]
          exact ih _ _ _ (by simp [hlen]) (hQ path r _ hq (by omega) rfl (Or.inr rfl))
      · rw [if_neg h1]
        by_cases h3 : ruleMarker.isPrefixOf line
        · rw [if_pos h3]
          by_cases h4 : cleanText line ruleMarker = []
          · rw [if_neg (not_not_intro h4)]
            exact hq
          · rw [if_pos h4]
            exact hQ path r _ hq (by omega) rfl (Or.inl rfl)
        · rw [if_neg h3]
          exact hq
    · rw [if_neg hd]
      exact hr

/-- Nodes at depth exactly `k` of a tree of height at most `k` have empty
child lists. -/
theorem leavesAt_of_height : ∀ (k : Nat) (n : RNode), heightOf n ≤ k → leavesAt k n = true := by
  intro k
  induction k with
  | zero =>
    intro n h
    cases n with
    | mk s t cs =>
      cases cs with
      | nil => simp [leavesAt, RNode.children]
      | cons c cs =>
        exfalso
        simp only [heightOf, heightL] at h
        omega
  | succ k ih =>
    intro n h
    cases n with
    | mk s t cs =>
      simp only [leavesAt, RNode.children, List.all_eq_true]
      intro c hc
      apply ih
      have h1 := heightL_mem hc
      have h2 : heightL cs ≤ k + 1 := by simpa [heightOf] using h
      omega

/-- The pre-expansion root has height at most 1. -/
theorem initial_root_height (conclusion : Str) (facts : List Str) :
    heightOf (initial_root conclusion facts) ≤ 1 := by
  rw [initial_root]
  show heightL (facts.map fun f => RNode.mk f .story_fact []) ≤ 1
  induction facts with
  | nil => simp [heightL]
  | cons f fs ih =>
    simp only [List.map_cons, heightL, heightOf]
    omega

/-- The fuel of the encoding is irrelevant: any two fuels that keep
`max_depth + 1 ≤ depth + fuel` produce the same tree, so the depth guard,
not the fuel, stops the recursion. -/
theorem expandNode_fuel_congr (oracle : Str → List Str → Str) (forbidden : List Str)
    (maxd : Nat) :
    ∀ (f g : Nat) (root : RNode) (path : List Nat) (depth : Nat),
      maxd + 1 ≤ depth + f → maxd + 1 ≤ depth + g →
      expandNode oracle forbidden maxd f root path depth =
        expandNode oracle forbidden maxd g root path depth := by
  intro f
  induction f using Nat.strong_induction_on with
  | _ f ihf =>
    intro g root path depth hf hg
    cases f with
    | zero =>
      have hd : ¬ depth ≤ maxd := by omega
      cases g with
      | zero => rfl
      | succ g => rw [expandNode, expandNode, if_neg hd]
    | succ f =>
      cases g with
      | zero =>
        have hd : ¬ depth ≤ maxd := by omega
        rw [expandNode, expandNode, if_neg hd]
      | succ g =>
        rw [expandNode, expandNode]
        by_cases hd : depth ≤ maxd
        · rw [if_pos hd, if_pos hd, processLines, processLines]
          have key : ∀ (lines : List Str) (r : RNode),
              List.foldl (fun r line =>
                if storyMarker.isPrefixOf line then
                  let story_fact := cleanText line storyMarker
                  if story_fact ≠ [] then
                    let idx := ((nodeAt path r).map (fun n => n.children.length)).getD 0
                    let r1 := appendChildAt path r
                      (.mk story_fact (storyNodeType forbidden story_fact) [])
                    expandNode oracle forbidden maxd f r1 (path ++ [idx]) (depth + 1)
                  else r
                else if ruleMarker.isPrefixOf line then
                  let rule_fact := cleanText line ruleMarker
                  if rule_fact ≠ [] then appendChildAt path r (.mk rule_fact .rule_fact [])
                  else r
                else r) r lines =
              List.foldl (fun r line =>
                if storyMarker.isPrefixOf line then
                  let story_fact := cleanText line storyMarker
                  if story_fact ≠ [] then
                    let idx := ((nodeAt path r).map (fun n => n.children.length)).getD 0
                    let r1 := appendChildAt path r
                      (.mk story_fact (storyNodeType forbidden story_fact) [])
                    expandNode oracle forbidden maxd g r1 (path ++ [idx]) (depth + 1)
                  else r
                else if ruleMarker.isPrefixOf line then
                  let rule_fact := cleanText line ruleMarker
                  if rule_fact ≠ [] then appendChildAt path r (.mk rule_fact .rule_fact [])
                  else r
                else r) r lines := by
            intro lines
            induction lines with
            | nil => intro r; rfl
            | cons line rest ihl =>
              intro r
              rw [List.foldl_cons, List.foldl_cons]
              have hstep :
                  (if storyMarker.isPrefixOf line then
                    let story_fact := cleanText line storyMarker
                    if story_fact ≠ [] then
                      let idx := ((nodeAt path r).map (fun n => n.children.length)).getD 0
                      let r1 := appendChildAt path r
                        (.mk story_fact (storyNodeType forbidden story_fact) [])
                      expandNode oracle forbidden maxd f r1 (path ++ [idx]) (depth + 1)
                    else r
                  else if ruleMarker.isPrefixOf line then
                    let rule_fact := cleanText line ruleMarker
                    if rule_fact ≠ [] then appendChildAt path r (.mk rule_fact .rule_fact [])
                    else r
                  else r) =
                  (if storyMarker.isPrefixOf line then
                    let story_fact := cleanText line storyMarker
                    if story_fact ≠ [] then
                      let idx := ((nodeAt path r).map (fun n => n.children.length)).getD 0
                      let r1 := appendChildAt path r
                        (.mk story_fact (storyNodeType forbidden story_fact) [])
                      expandNode oracle forbidden maxd g r1 (path ++ [idx]) (depth + 1)
                    else r
                  else if ruleMarker.isPrefixOf line then
                    let rule_fact := cleanText line ruleMarker
                    if rule_fact ≠ [] then appendChildAt path r (.mk rule_fact .rule_fact [])
                    else r
                  else r) := by
                by_cases h1 : storyMarker.isPrefixOf line
                · rw [if_pos h1, if_pos h1]
                  by_cases h2 : cleanText line storyMarker = []
                  · rw [if_neg (not_not_intro h2), if_neg (not_not_intro h2)]
                  · rw [if_pos h2, if_pos h2]
                    exact ihf f (by omega) g _ _ _ (by omega) (by omega)
                · rw [if_neg h1, if_neg h1]
              rw [hstep]
              exact ihl _
          exact key _ root
        · rw [if_neg hd, if_neg hd]

/-! ## Claim theorems for the reasoning-tree engine -/

/-- C6: for every maximal depth `d` and every oracle, both
`complete_reasoning_tree` variants return a tree with no node at depth
greater than `d + 1`, and every node at depth exactly `d + 1` has an empty
child list (it is never expanded). -/
theorem tree_depth_bound (d : Nat) (oracle : Str → List Str → Str)
    (gold_facts diversity_facts : List Str) (answer : String) :
    (heightOf (complete_reasoning_tree d oracle gold_facts diversity_facts).root ≤ d + 1 ∧
      leavesAt (d + 1) (complete_reasoning_tree d oracle gold_facts diversity_facts).root
        = true) ∧
    (heightOf (grounded_complete_reasoning_tree d oracle answer
        gold_facts diversity_facts).root ≤ d + 1 ∧
      leavesAt (d + 1) (grounded_complete_reasoning_tree d oracle answer
        gold_facts diversity_facts).root = true) := by
  have main : ∀ (conclusion : Str) (facts : List Str),
      heightOf (expandNode oracle forbidden_words d (d + 2)
        (initial_root conclusion facts) [] 0) ≤ d + 1 := by
    intro conclusion facts
    apply expandNode_inv oracle forbidden_words d (fun r => heightOf r ≤ d + 1)
      ?_ (d + 2) _ [] 0 rfl ?_
    · intro q r c hq hlen hc _
      have hb := appendChildAt_height q r c
      have hc0 : heightOf c = 0 := by
        cases c with
        | mk cs ct cc =>
          have : cc = [] := hc
          subst this
          simp [heightOf, heightL]
      omega
    · exact (initial_root_height conclusion facts).trans (by omega)
  constructor
  · constructor
    · exact main _ _
    · exact leavesAt_of_height _ _ (main _ _)
  · constructor
    · exact main _ _
    · exact leavesAt_of_height _ _ (main _ _)

/-- C7: every node of the expanded tree either already carries a label of
the initial tree, or obeys the forbidden-vocabulary policy: a `story_fact`
node's text contains no configured forbidden term, and a `deduced_fact`
node created by the expansion was reclassified because its text contains
one. -/
theorem forbidden_reclassification (oracle : Str → List Str → Str) (forbidden : List Str)
    (maxd fuel : Nat) (root0 : RNode) (path : List Nat) (depth : Nat) (n : RNode)
    (hlen : path.length = depth)
    (hn : n ∈ preorderNodes (expandNode oracle forbidden maxd fuel root0 path depth)) :
    labelOf n ∈ labelsOf root0 ∨
      ((n.node_type = .story_fact →
          forbidden.any (fun w => containsSub (n.statement.map Char.toLower) w) = false) ∧
       (n.node_type = .deduced_fact →
          forbidden.any (fun w => containsSub (n.statement.map Char.toLower) w) = true)) := by
  have key := expandNode_inv oracle forbidden maxd
    (fun r => ∀ m ∈ preorderNodes r, labelOf m ∈ labelsOf root0 ∨
      ((m.node_type = .story_fact →
          forbidden.any (fun w => containsSub (m.statement.map Char.toLower) w) = false) ∧
       (m.node_type = .deduced_fact →
          forbidden.any (fun w => containsSub (m.statement.map Char.toLower) w) = true)))
    ?_ fuel root0 path depth hlen ?_
  · exact key n hn
  · intro q r c hq hle hc hk
    intro m hm
    rcases appendChildAt_labels q r c (labelOf m) (List.mem_map_of_mem labelOf hm)
      with h | h
    · rcases List.mem_map.1 h with ⟨m2, hm2, he⟩
      rcases hq m2 hm2 with h2 | h2
      · left
        rw [← he]
        exact h2
      · right
        have hs : m2.statement = m.statement ∧ m2.node_type = m.node_type := by
          simpa [labelOf, Prod.ext_iff] using he
        rw [← hs.1, ← hs.2]
        exact h2
    · right
      cases c with
      | mk cs ct cc =>
        have hcc : cc = [] := hc
        subst hcc
        simp only [labelsOf, preorderNodes_leaf, List.map_cons, List.map_nil,
          List.mem_singleton] at h
        have hs : m.statement = cs ∧ m.node_type = ct := by
          simpa [labelOf, Prod.ext_iff] using h
        rw [hs.1, hs.2]
        rcases hk with hk | hk
        · have hct : ct = .rule_fact := hk
          subst hct
          exact ⟨(fun hh => nomatch hh), (fun hh => nomatch hh)⟩
        · have hct : ct = storyNodeType forbidden cs := hk
          subst hct
          rw [storyNodeType]
          by_cases hf : forbidden.any (fun w => containsSub (cs.map Char.toLower) w) = true
          · rw [if_pos hf]
            exact ⟨(fun hh => nomatch hh), (fun _ => hf)⟩
          · rw [if_neg hf]
            exact ⟨(fun _ => Bool.eq_false_iff.2 hf), (fun hh => nomatch hh)⟩
  · intro m hm
    left
    exact List.mem_map_of_mem labelOf hm

/-- Witness for C7: with the domain's forbidden list, the oracle line
`Story Fact: use joint assessment` yields a node reclassified to
`deduced_fact` whose text contains a forbidden term. -/
theorem forbidden_reclassification_witness :
    labelOf (RNode.mk "use joint assessment".toList .deduced_fact []) ∈
        labelsOf (RNode.mk "C".toList .deduced_fact []) ∨
      (((RNode.mk "use joint assessment".toList .deduced_fact []).node_type = .story_fact →
          forbidden_words.any (fun w => containsSub
            ((RNode.mk "use joint assessment".toList .deduced_fact []).statement.map
              Char.toLower) w) = false) ∧
       ((RNode.mk "use joint assessment".toList .deduced_fact []).node_type = .deduced_fact →
          forbidden_words.any (fun w => containsSub
            ((RNode.mk "use joint assessment".toList .deduced_fact []).statement.map
              Char.toLower) w) = true)) :=
  forbidden_reclassification
    (fun _ _ => "Story Fact: use joint assessment\nStory Fact: clean".toList)
    forbidden_words 0 2 (RNode.mk "C".toList .deduced_fact []) [] 0
    (RNode.mk "use joint assessment".toList .deduced_fact []) rfl
    (List.Mem.tail _ (List.Mem.head _))

/-- C8: every expansion step with the depth guard satisfied invokes the
oracle with the current node's statement and the story-fact list obtained
by a fresh full preorder traversal of the whole tree built so far; and, on
a concrete run, the call for the second sibling B already sees the fact A1
appended below the previously expanded sibling A. -/
theorem oracle_feedback_fresh :
    (∀ (oracle : Str → List Str → Str) (forbidden : List Str) (maxd fuel : Nat)
        (root : RNode) (path : List Nat) (depth : Nat), depth ≤ maxd →
      expandNode oracle forbidden maxd (fuel + 1) root path depth =
        processLines (expandNode oracle forbidden maxd fuel) forbidden path depth root
          (splitLines (oracle (((nodeAt path root).map RNode.statement).getD [])
            (extract_underlying_facts ⟨root⟩)))) ∧
    (containsStmt (complete_reasoning_tree 1 demoOracle ["C".toList] []).root
        "sawA1".toList = true ∧
     containsStmt (complete_reasoning_tree 1 demoOracle ["C".toList] []).root
        "noA1".toList = false) := by
  refine ⟨fun oracle forbidden maxd fuel root path depth hd => ?_, by decide, by decide⟩
  rw [expandNode, if_pos hd]

/-- Witness for C8 on the trivial oracle at depth 0. -/
theorem oracle_feedback_fresh_witness :
    expandNode (fun _ _ => []) [] 0 1 (RNode.mk "C".toList .deduced_fact []) [] 0 =
      processLines (expandNode (fun _ _ => []) [] 0 0) [] [] 0
        (RNode.mk "C".toList .deduced_fact [])
        (splitLines ((fun _ _ => ([] : Str))
          (((nodeAt [] (RNode.mk "C".toList .deduced_fact [])).map RNode.statement).getD [])
          (extract_underlying_facts ⟨RNode.mk "C".toList .deduced_fact []⟩))) :=
  oracle_feedback_fresh.1 (fun _ _ => []) [] 0 0
    (RNode.mk "C".toList .deduced_fact []) [] 0 (by omega)

/-- C9: the story-fact extractor returns exactly the statements of the
`story_fact` nodes, one per node, in preorder node-then-children order. -/
theorem extraction_round_trip (tree : ReasoningTree) :
    extract_underlying_facts tree =
      ((preorderNodes tree.root).filter
        (fun n => n.node_type == .story_fact)).map RNode.statement := by
  have hL : ∀ (ds : List RNode),
      (∀ c ∈ ds, factsWalk c =
        ((preorderNodes c).filter (fun m => m.node_type == .story_fact)).map RNode.statement) →
      factsWalkL ds =
        ((preorderL ds).filter (fun m => m.node_type == .story_fact)).map RNode.statement := by
    intro ds
    induction ds with
    | nil =>
      intro _
      simp [factsWalkL, preorderL]
    | cons c ds ih =>
      intro h
      rw [factsWalkL, preorderL, List.filter_append, List.map_append,
        h c (List.mem_cons_self _ _), ih (fun x hx => h x (List.mem_cons_of_mem _ hx))]
  have main : ∀ n : RNode, factsWalk n =
      ((preorderNodes n).filter (fun m => m.node_type == .story_fact)).map RNode.statement := by
    apply RNode.strongInd
    intro s t cs ihc
    rw [factsWalk, preorderNodes, List.filter_cons, hL cs ihc]
    by_cases ht : t = .story_fact
    · simp [RNode.node_type, RNode.statement, ht]
    · simp [RNode.node_type, ht]
  rw [extract_underlying_facts]
  exact main tree.root

/-- C10: the grounded template construction reads the non-existent `income`
attribute of the `CoupleTaxInput` record whenever person A's income is
positive, so it fails with an attribute error there; with person A's income
zero the conditional takes the other branch and a template is returned
(person B's income is read correctly through `b.income`). -/
theorem grounded_template_attr_error (showNum : ℚ → Str) (showNat : ℕ → Str)
    (jobA jobB : Str) (c : CoupleTaxInput) :
    (0 < c.a.income →
      grounded_construct_template showNum showNat jobA jobB c =
        Except.error "AttributeError: income".toList) ∧
    (c.a.income = 0 →
      ∃ t, grounded_construct_template showNum showNat jobA jobB c = Except.ok t) := by
  have hget : CoupleTaxInput.getattr c ("income".toList) = none := rfl
  constructor
  · intro h
    have hg : grounded_gold_facts showNum c =
        Except.error "AttributeError: income".toList := by
      unfold grounded_gold_facts
      rw [if_pos h, hget]
      rfl
    unfold grounded_construct_template
    rw [hg]
    rfl
  · intro h
    have h0 : ¬ 0 < c.a.income := by
      rw [h]
      exact lt_irrefl 0
    unfold grounded_construct_template grounded_gold_facts
    rw [if_neg h0]
    exact ⟨_, rfl⟩

/-- Witness for C10: positive income for person A fails, zero income
succeeds. -/
theorem grounded_template_attr_error_witness :
    grounded_construct_template (fun _ => []) (fun _ => []) [] []
        ⟨⟨1, false, 0, 0, true⟩, ⟨0, false, 0, 0, true⟩, 9/100, true, 0, true⟩ =
      Except.error "AttributeError: income".toList ∧
    (∃ t, grounded_construct_template (fun _ => []) (fun _ => []) [] []
        ⟨⟨0, false, 0, 0, true⟩, ⟨0, false, 0, 0, true⟩, 9/100, true, 0, true⟩ =
      Except.ok t) :=
  ⟨(grounded_template_attr_error _ _ _ _ _).1 (by norm_num),
   (grounded_template_attr_error _ _ _ _ _).2 rfl⟩

end TaxMusr
